import Mathlib

/-!
Verification of the `xml-to-jsonld` transform pipeline
(`src/packages/xml-to-jsonld/src/index.ts`).

The source is a TypeScript module that turns a parsed-XML JavaScript
object tree into `{html, jsonLd, meta}`.  We shallowly embed the
JavaScript values the parser produces as the inductive type `Val`, and
translate each function of the module (`A`, `esc`, `clean`, `transform`
and the six mappers) into a Lean function over `Val`.

Modelling conventions, stated once here:

* `Val.null` models the JavaScript nullish values.  The XML parser
  never places a literal `null` in the tree, so every nullish value the
  module meets is `undefined` (a missing property, or an explicit
  `undefined` stored by a mapper); where the two behave differently
  (`esc`'s default parameter, `String(...)`) we follow the `undefined`
  behaviour.
* Object keys are kept in insertion order, matching `Object.keys` for
  the tag-name keys at hand (tag names are never array indices).
* `Number(...)` coercion is modelled on the fragment of numerals the
  documents use: optionally signed decimal integer strings (with
  surrounding whitespace), the empty/blank string (which coerces to 0),
  and everything non-numeric coercing to `JNum.nan`.  Non-integer
  numeric syntax is outside the modelled fragment.
-/

namespace AEO

/-- JavaScript numbers as they matter to the module: either NaN (what
`Number` yields on non-numeric input) or an integer value. -/
inductive JNum where
  | nan : JNum
  | int : Int → JNum
deriving Repr, DecidableEq

/-- A JavaScript value in the parsed-XML tree / JSON-LD output: nullish,
string, number, boolean, array, or object (assoc list in key insertion
order). -/
inductive Val where
  | null : Val
  | str : String → Val
  | num : JNum → Val
  | bool : Bool → Val
  | arr : List Val → Val
  | obj : List (String × Val) → Val

/-- JavaScript truthiness of a `Val` (`undefined`, `""`, `0`, `NaN`,
`false` are falsy; arrays and objects are always truthy). -/
def truthy : Val → Bool
  | Val.null => false
  | Val.str s => !(s == "")
  | Val.num JNum.nan => false
  | Val.num (JNum.int i) => !(i == 0)
  | Val.bool b => b
  | Val.arr _ => true
  | Val.obj _ => true

/-- JavaScript `a || b`: `a` if truthy, else `b`. -/
def jsOr (a b : Val) : Val := if truthy a then a else b

/-- Property access `v[k]`: looks the key up in an object, `undefined`
(= `Val.null`) when absent or when `v` is not an object.  This also
covers the module's optional chaining `x?.k`, since access on
`Val.null` yields `Val.null`. -/
def getF (v : Val) (k : String) : Val :=
  match v with
  | Val.obj fs => (List.lookup k fs).getD Val.null
  | _ => Val.null

/-- The top-level keys of a document object (in insertion order),
`Object.keys`. -/
def keysOf : Val → List String
  | Val.obj fs => fs.map Prod.fst
  | _ => []

/-- Whether the emitted JSON-LD object carries a key (observer used by
the theorems, not part of the source). -/
def hasKey (v : Val) (k : String) : Bool :=
  match v with
  | Val.obj fs => (List.lookup k fs).isSome
  | _ => false

/-- The fields of an object value (observer used by the theorems). -/
def objFields : Val → List (String × Val)
  | Val.obj fs => fs
  | _ => []

/-- Source helper `A`: normalize a value into an array —
`v ? (Array.isArray(v) ? v : [v]) : []`. -/
def A (v : Val) : List Val :=
  if truthy v then
    match v with
    | Val.arr xs => xs
    | x => [x]
  else []

/-- Decimal digits to a natural number (used by the `Number` model). -/
def digitsToNat (l : List Char) : Nat :=
  l.foldl (fun a c => a * 10 + (c.toNat - '0'.toNat)) 0

/-- ASCII whitespace (the whitespace the documents can contain), for
the trimming `Number(...)` performs on strings. -/
def isWsp (c : Char) : Bool :=
  (c == ' ') || (c == '\t') || (c == '\n') || (c == '\r')

/-- Trim leading and trailing whitespace from a character list. -/
def trimL (l : List Char) : List Char :=
  ((l.dropWhile isWsp).reverse.dropWhile isWsp).reverse

/-- JavaScript `Number(s)` on a string, over the modelled fragment:
blank strings coerce to 0, optionally signed decimal integer numerals
to their value, anything else to NaN. -/
def jsStrToNum (s : String) : JNum :=
  match trimL s.data with
  | [] => JNum.int 0
  | '-' :: ds =>
    if !ds.isEmpty && ds.all Char.isDigit then JNum.int (-(digitsToNat ds : Int))
    else JNum.nan
  | '+' :: ds =>
    if !ds.isEmpty && ds.all Char.isDigit then JNum.int (digitsToNat ds)
    else JNum.nan
  | ds =>
    if ds.all Char.isDigit then JNum.int (digitsToNat ds)
    else JNum.nan

mutual
/-- JavaScript `String(v)` on the values the module can meet.
`Val.null` prints as `undefined` (see the module-level note), numbers
and booleans as in JS, arrays join their elements with `","` (nullish
elements joining as the empty string), plain objects print as
`[object Object]`. -/
def jsToString : Val → String
  | Val.null => "undefined"
  | Val.str s => s
  | Val.num JNum.nan => "NaN"
  | Val.num (JNum.int i) => toString i
  | Val.bool b => if b then "true" else "false"
  | Val.obj _ => "[object Object]"
  | Val.arr xs => String.intercalate "," (jsJoinParts xs)

/-- Element rendering for `Array.prototype.join`: nullish elements
become the empty string. -/
def jsJoinParts : List Val → List String
  | [] => []
  | Val.null :: vs => "" :: jsJoinParts vs
  | v :: vs => jsToString v :: jsJoinParts vs
end

/-- JavaScript `Number(v)`: numbers pass through, strings are parsed,
booleans become 0/1, `undefined` is NaN, arrays and objects go through
their string conversion (JS ToPrimitive) and then the string parse. -/
def jsNumber (v : Val) : JNum :=
  match v with
  | Val.null => JNum.nan
  | Val.num n => n
  | Val.str s => jsStrToNum s
  | Val.bool b => JNum.int (if b then 1 else 0)
  | Val.arr xs => jsStrToNum (jsToString (Val.arr xs))
  | Val.obj fs => jsStrToNum (jsToString (Val.obj fs))

/-- Source `replaceAll` with a single-character pattern, the only shape `esc`
uses: every occurrence of the character is replaced, left to right,
without rescanning the replacement text. -/
def replaceCharL (p : Char) (r : List Char) : List Char → List Char
  | [] => []
  | c :: cs => (if c = p then r else [c]) ++ replaceCharL p r cs

/-- The character-list body of source `esc`: the four `replaceAll`
passes in source order (`&` first, then `<`, `>`, `"`). -/
def escL (l : List Char) : List Char :=
  replaceCharL '"' "&quot;".data
    (replaceCharL '>' "&gt;".data
      (replaceCharL '<' "&lt;".data
        (replaceCharL '&' "&amp;".data l)))

/-- HTML escaping of a string, as source `esc` does on the result of
`String(s)`. -/
def escStr (s : String) : String := String.mk (escL s.data)

/-- Source `esc`: HTML-escape a value for insertion into HTML.  The
default parameter `s = ""` fires exactly when the argument is
`undefined`, so a nullish argument escapes to `""`. -/
def esc (v : Val) : String :=
  match v with
  | Val.null => ""
  | x => escStr (jsToString x)

/-- Whether source `clean` would drop the value: nullish, or an empty
array (`o[k] == null || (Array.isArray(o[k]) && !o[k].length)`). -/
def isNullish : Val → Bool
  | Val.null => true
  | _ => false

/-- Empty-array test used by source `clean`. -/
def isEmptyArr : Val → Bool
  | Val.arr l => l.isEmpty
  | _ => false

/-- Keep-predicate of source `clean`: a field survives iff it is
neither nullish nor an empty array. -/
def keepVal (v : Val) : Bool := !(isNullish v || isEmptyArr v)

/-- Source `clean`: remove keys with nullish values or empty arrays
from an object's fields (key order otherwise preserved). -/
def clean (fs : List (String × Val)) : List (String × Val) :=
  fs.filter (fun kv => keepVal kv.2)

/-- The page metadata record (`meta: { title?, description? }`).  Both
fields hold the raw value the mapper stored; mappers that set no
description leave `Val.null` (= the key holding `undefined`). -/
structure Meta where
  title : Val
  description : Val

/-- The unified output record `{ html, jsonLd, meta }`. -/
structure TransformOutput where
  html : String
  jsonLd : Val
  meta : Meta

/- ---------- Article ---------- -/

/-- The object literal passed to `clean` inside source `article`:
`@context`/`@type`, headline, datePublished, the duck-typed
Person-or-Organization author, and the image URL. -/
def articleFields (Ax : Val) : List (String × Val) :=
  [("@context", Val.str "https://schema.org"),
   ("@type", Val.str "Article"),
   ("headline", getF Ax "headline"),
   ("datePublished", getF Ax "datePublished"),
   ("author",
     if truthy (getF (getF Ax "author") "Person") then
       Val.obj [("@type", Val.str "Person"),
                ("name", getF (getF (getF Ax "author") "Person") "name"),
                ("url", getF (getF (getF Ax "author") "Person") "url")]
     else if truthy (getF (getF Ax "author") "Organization") then
       Val.obj [("@type", Val.str "Organization"),
                ("name", getF (getF (getF Ax "author") "Organization") "name"),
                ("url", getF (getF (getF Ax "author") "Organization") "url")]
     else Val.null),
   ("image", getF (getF (getF Ax "image") "ImageObject") "url")]

/-- Source `article`: Article subtree to `{html, jsonLd, meta}`. -/
def article (Ax : Val) : TransformOutput :=
  let body := jsOr (getF Ax "body") (Val.obj [])
  let ps := String.join ((A (getF body "p")).map (fun t => "<p>" ++ esc t ++ "</p>"))
  let secs := String.join ((A (getF body "section")).map (fun s =>
    "<section><h2>" ++ esc (getF s "title") ++ "</h2>" ++
      String.join ((A (getF s "p")).map (fun t => "<p>" ++ esc t ++ "</p>")) ++
      "</section>"))
  { html := "<h1>" ++ esc (jsOr (getF Ax "headline") (Val.str "Article")) ++ "</h1>" ++ ps ++ secs,
    jsonLd := Val.obj (clean (articleFields Ax)),
    meta := { title := getF Ax "headline", description := getF Ax "description" } }

/- ---------- HowTo ---------- -/

/-- The `supplies` list of source `howto`: wrappers flattened and falsy entries
dropped (`A(H.supply).flatMap(s => A(s?.HowToSupply)).filter(Boolean)`). -/
def howtoSupplies (H : Val) : List Val :=
  (((A (getF H "supply")).map (fun s => A (getF s "HowToSupply"))).flatten).filter truthy

/-- The `tools` list of source `howto`. -/
def howtoTools (H : Val) : List Val :=
  (((A (getF H "tool")).map (fun t => A (getF t "HowToTool"))).flatten).filter truthy

/-- The `HowToStep` object literal built by source `howto` for one step
record. -/
def mkStep (s : Val) : Val :=
  Val.obj [("@type", Val.str "HowToStep"),
           ("name", getF s "name"),
           ("text", getF s "text"),
           ("image", getF s "image")]

/-- The flat-step phase of source `howto`: `if (H.step) { ... }` maps
each `<step><HowToStep/></step>` wrapper to a `HowToStep` object. -/
def howtoFlatSteps (H : Val) : List Val :=
  if truthy (getF H "step") then
    (((A (getF H "step")).map (fun s => getF s "HowToStep")).filter truthy).map mkStep
  else []

/-- The section phase of source `howto`: `if (H.section) { ... }` maps
each `<section><HowToSection/></section>` wrapper to a `HowToSection`
object with its own nested `itemListElement` of `HowToStep`s. -/
def howtoSectionSteps (H : Val) : List Val :=
  if truthy (getF H "section") then
    (((A (getF H "section")).map (fun s => getF s "HowToSection")).filter truthy).map
      (fun sec =>
        Val.obj [("@type", Val.str "HowToSection"),
                 ("name", getF sec "name"),
                 ("itemListElement",
                   Val.arr ((((A (getF sec "step")).map (fun x => getF x "HowToStep")).filter truthy).map mkStep))])
  else []

/-- The object literal passed to `clean` inside source `howto`.  The
`step` field holds the flat steps followed by the sections, exactly the
`step = flat...; step = step.concat(sections...)` sequence of the
source. -/
def howtoFields (H : Val) : List (String × Val) :=
  [("@context", Val.str "https://schema.org"),
   ("@type", Val.str "HowTo"),
   ("name", getF H "name"),
   ("description", getF H "description"),
   ("totalTime", getF H "totalTime"),
   ("supply",
     if (howtoSupplies H).isEmpty then Val.null
     else Val.arr ((howtoSupplies H).map (fun s =>
       Val.obj [("@type", Val.str "HowToSupply"),
                ("name", getF s "name"),
                ("requiredQuantity", getF s "requiredQuantity")]))),
   ("tool",
     if (howtoTools H).isEmpty then Val.null
     else Val.arr ((howtoTools H).map (fun t =>
       Val.obj [("@type", Val.str "HowToTool"), ("name", getF t "name")]))),
   ("step", Val.arr (howtoFlatSteps H ++ howtoSectionSteps H))]

/-- Source `li` helper inside `howto`: one step rendered as a list
item. -/
def howtoLi (s : Val) : String :=
  "<li><strong>" ++ esc (jsOr (getF s "name") (Val.str "")) ++ "</strong>" ++
  (if truthy (getF s "text") then "<div>" ++ esc (getF s "text") ++ "</div>" else "") ++
  (if truthy (getF s "image") then
    "<figure><img src=\"" ++ esc (getF s "image") ++ "\" alt=\"\"></figure>"
   else "") ++ "</li>"

/-- Source `howto`: HowTo subtree to `{html, jsonLd, meta}`. -/
def howto (H : Val) : TransformOutput :=
  let supplies := howtoSupplies H
  let tools := howtoTools H
  let step := howtoFlatSteps H ++ howtoSectionSteps H
  let sup :=
    if supplies.isEmpty then ""
    else "<h2>Supplies</h2><ul>" ++
      String.join (supplies.map (fun s =>
        "<li>" ++ esc (getF s "name") ++
        (if truthy (getF s "requiredQuantity") then " â€” " ++ esc (getF s "requiredQuantity") else "") ++
        "</li>")) ++ "</ul>"
  let tl :=
    if tools.isEmpty then ""
    else "<h2>Tools</h2><ul>" ++
      String.join (tools.map (fun t => "<li>" ++ esc (getF t "name") ++ "</li>")) ++ "</ul>"
  let stepsHtml :=
    String.join (step.map (fun s =>
      if (match getF s "@type" with
          | Val.str t => t == "HowToSection"
          | _ => false) then
        "<section><h2>" ++ esc (getF s "name") ++ "</h2><ol>" ++
          String.join ((match getF s "itemListElement" with
            | Val.arr l => l
            | _ => []).map howtoLi) ++ "</ol></section>"
      else howtoLi s))
  { html := "<h1>" ++ esc (jsOr (getF H "name") (Val.str "HowTo")) ++ "</h1>" ++
      (if truthy (getF H "description") then "<p>" ++ esc (getF H "description") ++ "</p>" else "") ++
      sup ++ tl ++ "<h2>Steps</h2><ol>" ++ stepsHtml ++ "</ol>",
    jsonLd := Val.obj (clean (howtoFields H)),
    meta := { title := getF H "name", description := getF H "description" } }

/- ---------- BreadcrumbList ---------- -/

/-- The `items` list of source `breadcrumbs`: `A(B.itemListElement?.ListItem)`. -/
def breadcrumbItems (B : Val) : List Val :=
  A (getF (getF B "itemListElement") "ListItem")

/-- Source `breadcrumbs`: BreadcrumbList subtree to
`{html, jsonLd, meta}`.  Note: this mapper does not call `clean`, and
`position` goes through `Number(...)`. -/
def breadcrumbs (B : Val) : TransformOutput :=
  let items := breadcrumbItems B
  { html := "<nav aria-label=\"Breadcrumb\"><ol>" ++
      String.join (items.map (fun it =>
        "<li><a href=\"" ++ esc (jsOr (getF it "item") (Val.str "#")) ++ "\">" ++
          esc (getF it "name") ++ "</a></li>")) ++ "</ol></nav>",
    jsonLd := Val.obj
      [("@context", Val.str "https://schema.org"),
       ("@type", Val.str "BreadcrumbList"),
       ("itemListElement", Val.arr (items.map (fun it =>
         Val.obj [("@type", Val.str "ListItem"),
                  ("position", Val.num (jsNumber (getF it "position"))),
                  ("name", getF it "name"),
                  ("item", getF it "item")])))],
    meta := { title := match items.getLast? with
                       | some l => getF l "name"
                       | none => Val.null,
              description := Val.null } }

/- ---------- Organization ---------- -/

/-- The object literal passed to `clean` inside source `organization`. -/
def organizationFields (O : Val) : List (String × Val) :=
  [("@context", Val.str "https://schema.org"),
   ("@type", Val.str "Organization"),
   ("name", getF O "name"),
   ("url", getF O "url"),
   ("logo", getF (getF (getF O "logo") "ImageObject") "url"),
   ("sameAs", Val.arr (A (getF O "sameAs"))),
   ("contactPoint",
     if truthy (getF O "contactPoint") then
       Val.arr ((A (getF (getF O "contactPoint") "ContactPoint")).map (fun c =>
         Val.obj [("@type", Val.str "ContactPoint"),
                  ("telephone", getF c "telephone"),
                  ("contactType", getF c "contactType")]))
     else Val.null)]

/-- Source `organization`: OrgRoot subtree to `{html, jsonLd, meta}`.
The emitted `@type` is `Organization`, the one root-tag/type divergence. -/
def organization (O : Val) : TransformOutput :=
  { html := "<h1>" ++ esc (getF O "name") ++ "</h1>" ++
      (if truthy (getF O "url") then
        "<p><a href=\"" ++ esc (getF O "url") ++ "\">" ++ esc (getF O "url") ++ "</a></p>"
       else ""),
    jsonLd := Val.obj (clean (organizationFields O)),
    meta := { title := getF O "name", description := Val.null } }

/- ---------- LocalBusiness ---------- -/

/-- The object literal passed to `clean` inside source `localBusiness`
(`addr` is `L.address || {}`). -/
def localBusinessFields (L : Val) : List (String × Val) :=
  let addr := jsOr (getF L "address") (Val.obj [])
  [("@context", Val.str "https://schema.org"),
   ("@type", Val.str "LocalBusiness"),
   ("name", getF L "name"),
   ("url", getF L "url"),
   ("telephone", getF L "telephone"),
   ("address",
     if truthy (getF L "address") then
       Val.obj [("@type", Val.str "PostalAddress"),
                ("streetAddress", getF addr "streetAddress"),
                ("addressLocality", getF addr "addressLocality"),
                ("addressRegion", getF addr "addressRegion"),
                ("postalCode", getF addr "postalCode"),
                ("addressCountry", getF addr "addressCountry")]
     else Val.null),
   ("openingHoursSpecification",
     if truthy (getF L "openingHoursSpecification") then
       Val.arr ((A (getF (getF L "openingHoursSpecification") "OpeningHoursSpecification")).map (fun o =>
         Val.obj [("@type", Val.str "OpeningHoursSpecification"),
                  ("dayOfWeek", Val.arr (A (getF o "dayOfWeek"))),
                  ("opens", getF o "opens"),
                  ("closes", getF o "closes")]))
     else Val.null),
   ("sameAs", Val.arr (A (getF L "sameAs")))]

/-- Source `localBusiness`: LocalBusiness subtree to
`{html, jsonLd, meta}`. -/
def localBusiness (L : Val) : TransformOutput :=
  { html := "<h1>" ++ esc (getF L "name") ++ "</h1>" ++
      (if truthy (getF L "telephone") then "<p>" ++ esc (getF L "telephone") ++ "</p>" else ""),
    jsonLd := Val.obj (clean (localBusinessFields L)),
    meta := { title := getF L "name", description := Val.null } }

/- ---------- Product ---------- -/

/-- The `offers` list of source `product`: `A(P.offers?.Offer)`. -/
def productOffers (P : Val) : List Val :=
  A (getF (getF P "offers") "Offer")

/-- The typed `Offer` array built by source `product`. -/
def productOfferObjs (P : Val) : List Val :=
  (productOffers P).map (fun o =>
    Val.obj [("@type", Val.str "Offer"),
             ("price", getF o "price"),
             ("priceCurrency", getF o "priceCurrency"),
             ("availability", getF o "availability")])

/-- The object literal passed to `clean` inside source `product`.  The
`offers` field always holds an array (possibly empty). -/
def productFields (P : Val) : List (String × Val) :=
  [("@context", Val.str "https://schema.org"),
   ("@type", Val.str "Product"),
   ("name", getF P "name"),
   ("description", getF P "description"),
   ("image", Val.arr (((A (getF P "image")).map (fun im => getF (getF im "ImageObject") "url")).filter truthy)),
   ("brand",
     if truthy (getF (getF (getF P "brand") "Brand") "name") then
       Val.obj [("@type", Val.str "Brand"),
                ("name", getF (getF (getF P "brand") "Brand") "name")]
     else Val.null),
   ("sku", getF P "sku"),
   ("gtin13", getF P "gtin13"),
   ("offers", Val.arr (productOfferObjs P)),
   ("aggregateRating",
     if truthy (getF P "aggregateRating") then
       Val.obj [("@type", Val.str "AggregateRating"),
                ("ratingValue", getF (getF P "aggregateRating") "ratingValue"),
                ("reviewCount", getF (getF P "aggregateRating") "reviewCount")]
     else Val.null)]

/-- Source `product`: Product subtree to `{html, jsonLd, meta}`.  The
"From:" line is emitted only when at least one offer exists, from the
first offer in source order. -/
def product (P : Val) : TransformOutput :=
  let offers := productOffers P
  { html := "<article>\n    <h1>" ++ esc (getF P "name") ++ "</h1>\n    " ++
      (if truthy (getF P "description") then "<p>" ++ esc (getF P "description") ++ "</p>" else "") ++
      "\n    " ++
      (match offers with
       | [] => ""
       | o :: _ =>
         "<p><strong>From:</strong> " ++ esc (getF o "price") ++ " " ++
           esc (getF o "priceCurrency") ++ "</p>") ++
      "\n  </article>",
    jsonLd := Val.obj (clean (productFields P)),
    meta := { title := getF P "name", description := getF P "description" } }

/- ---------- Root dispatch ---------- -/

/-- Source test `k.startsWith("?")`: whether a key marks a processing instruction
such as `?xml` (single-character prefix test, written out on the
character list). -/
def isPI (k : String) : Bool :=
  match k.data with
  | '?' :: _ => true
  | _ => false

/-- The root-detection step of source `transform`:
`Object.keys(doc).find(k => !k.startsWith("?"))`. -/
def rootKey (doc : Val) : Option String :=
  (keysOf doc).find? (fun k => !(isPI k))

/-- The fixed set of supported root tags (used by the theorems). -/
def supportedRoots : List String :=
  ["Article", "HowTo", "BreadcrumbList", "OrgRoot", "LocalBusiness", "Product"]

/-- Source `transform`: find the first non-processing-instruction key,
fail when none is found — note `if (!root) throw` also fires on the
falsy empty-string key — then dispatch on the root tag, failing with
`Unsupported root: <tag>` when the tag is not one of the six mappers'. -/
def transform (doc : Val) : Except String TransformOutput :=
  match rootKey doc with
  | none => Except.error "No document root element found"
  | some root =>
    if root = "" then Except.error "No document root element found"
    else
      let data := getF doc root
      if root = "Article" then Except.ok (article data)
      else if root = "HowTo" then Except.ok (howto data)
      else if root = "BreadcrumbList" then Except.ok (breadcrumbs data)
      else if root = "OrgRoot" then Except.ok (organization data)
      else if root = "LocalBusiness" then Except.ok (localBusiness data)
      else if root = "Product" then Except.ok (product data)
      else Except.error ("Unsupported root: " ++ root)

/- ---------- Observers and helper lemmas ---------- -/

/-- Substring test on character lists (observer used by the theorems). -/
def containsSubL (pat : List Char) : List Char → Bool
  | [] => pat.isEmpty
  | c :: t => List.isPrefixOf pat (c :: t) || containsSubL pat t

/-- Whether `pat` occurs as a substring of `s` (observer used by the
theorems). -/
def containsSub (s pat : String) : Bool := containsSubL pat.data s.data

/-- Escape-wellformedness of a character list: no raw angle bracket or
double quote, and every ampersand opens one of the four entities
`amp;`, `lt;`, `gt;`, `quot;`. -/
def escOk : List Char → Bool
  | [] => true
  | c :: rest =>
    if c = '<' ∨ c = '>' ∨ c = '"' then false
    else if c = '&' then
      (List.isPrefixOf "amp;".data rest || List.isPrefixOf "lt;".data rest ||
       List.isPrefixOf "gt;".data rest || List.isPrefixOf "quot;".data rest) && escOk rest
    else escOk rest

/-- Boolean equality of strings is `false` on distinct strings. -/
theorem str_beq_false {a b : String} (h : a ≠ b) : (a == b) = false := by
  cases hb : a == b with
  | false => rfl
  | true => exact absurd (eq_of_beq hb) h

/-- Association-list lookup misses keys that are not present. -/
theorem lookup_eq_none_of_not_mem {k : String} :
    ∀ {l : List (String × Val)}, k ∉ l.map Prod.fst → List.lookup k l = none := by
  intro l
  induction l with
  | nil => intro _; rfl
  | cons hd t ih =>
    obtain ⟨k', v'⟩ := hd
    intro h
    simp only [List.map_cons, List.mem_cons] at h
    push_neg at h
    obtain ⟨h1, h2⟩ := h
    simp [List.lookup, str_beq_false h1, ih h2]

/-- Keys of the pruned field list are among the original keys. -/
theorem keys_clean_sub {k : String} {l : List (String × Val)}
    (h : k ∈ (clean l).map Prod.fst) : k ∈ l.map Prod.fst :=
  ((List.filter_sublist l).map Prod.fst).subset h

/-- Lookup through `clean`: on a field list with distinct keys, the
pruned lookup is the original lookup filtered by the keep-predicate. -/
theorem lookup_clean_eq (k : String) :
    ∀ (l : List (String × Val)), (l.map Prod.fst).Nodup →
      List.lookup k (clean l)
        = (List.lookup k l).bind (fun v => if keepVal v then some v else none) := by
  intro l
  induction l with
  | nil => intro _; rfl
  | cons hd t ih =>
    intro hnd
    obtain ⟨k', v'⟩ := hd
    simp only [List.map_cons, List.nodup_cons] at hnd
    obtain ⟨hk', hndt⟩ := hnd
    by_cases hkk : k = k'
    · subst hkk
      cases hkeep : keepVal v' with
      | true =>
        simp [clean, List.filter_cons, hkeep, List.lookup]
      | false =>
        have hnone : List.lookup k (clean t) = none :=
          lookup_eq_none_of_not_mem (fun hm => hk' (keys_clean_sub hm))
        simp [clean, List.filter_cons, hkeep, List.lookup, hnone] at hnone ⊢
        exact hnone
    · have hb := str_beq_false hkk
      cases hkeep : keepVal v' with
      | true => simp [clean, List.filter_cons, hkeep, List.lookup, hb] at ih ⊢; exact ih hndt
      | false => simp [clean, List.filter_cons, hkeep, List.lookup, hb] at ih ⊢; exact ih hndt

/-- Any value found in a pruned field list satisfies the
keep-predicate. -/
theorem lookup_clean_keep {l : List (String × Val)} {k : String} {v : Val}
    (h : List.lookup k (clean l) = some v) : keepVal v = true := by
  induction l with
  | nil => cases h
  | cons hd t ih =>
    obtain ⟨k', v'⟩ := hd
    cases hkeep : keepVal v' with
    | true =>
      rw [show clean ((k', v') :: t) = (k', v') :: clean t from by
        simp [clean, List.filter_cons, hkeep]] at h
      by_cases hkk : k = k'
      · subst hkk
        simp [List.lookup] at h
        rw [← h]; exact hkeep
      · simp [List.lookup, str_beq_false hkk] at h
        exact ih h
    | false =>
      rw [show clean ((k', v') :: t) = clean t from by
        simp [clean, List.filter_cons, hkeep]] at h
      exact ih h

/-- Single-character replacement distributes over append. -/
theorem replaceCharL_append (p : Char) (r : List Char) (a b : List Char) :
    replaceCharL p r (a ++ b) = replaceCharL p r a ++ replaceCharL p r b := by
  induction a with
  | nil => rfl
  | cons c a ih => simp [replaceCharL, ih, List.append_assoc]

/-- The escaping body distributes over append. -/
theorem escL_append (a b : List Char) : escL (a ++ b) = escL a ++ escL b := by
  simp [escL, replaceCharL_append]

/-- The escaping body always produces escape-wellformed output. -/
theorem escOk_escL : ∀ l : List Char, escOk (escL l) = true := by
  intro l
  induction l with
  | nil => rfl
  | cons c l ih =>
    rw [show (c :: l) = [c] ++ l from rfl, escL_append]
    by_cases h1 : c = '&'
    · subst h1
      rw [show escL ['&'] = '&' :: 'a' :: 'm' :: 'p' :: ';' :: [] from rfl]
      simp [escOk, List.isPrefixOf, ih]
    · by_cases h2 : c = '<'
      · subst h2
        rw [show escL ['<'] = '&' :: 'l' :: 't' :: ';' :: [] from rfl]
        simp [escOk, List.isPrefixOf, ih]
      · by_cases h3 : c = '>'
        · subst h3
          rw [show escL ['>'] = '&' :: 'g' :: 't' :: ';' :: [] from rfl]
          simp [escOk, List.isPrefixOf, ih]
        · by_cases h4 : c = '"'
          · subst h4
            rw [show escL ['"'] = '&' :: 'q' :: 'u' :: 'o' :: 't' :: ';' :: [] from rfl]
            simp [escOk, List.isPrefixOf, ih]
          · rw [show escL [c] = [c] from by simp [escL, replaceCharL, h1, h2, h3, h4]]
            simp [escOk, h1, h2, h3, h4, ih]


/- ---------- Sample documents used by the claims ---------- -/

/-- Product whose `offers` element is present but holds zero `Offer`
entries. -/
def productNoOffers : Val := Val.obj [("name", Val.str "W"), ("offers", Val.obj [])]

/-- Product with two offers; the first offer in source order is not the
cheapest one. -/
def productTwoOffers : Val :=
  Val.obj [("name", Val.str "W"),
           ("offers", Val.obj [("Offer", Val.arr
             [Val.obj [("price", Val.str "5"), ("priceCurrency", Val.str "USD")],
              Val.obj [("price", Val.str "3"), ("priceCurrency", Val.str "EUR")]])])]

/-- Article whose author has a name but no URL (exercises the nested,
unpruned author object). -/
def articleNoAuthorUrl : Val :=
  Val.obj [("headline", Val.str "T"),
           ("author", Val.obj [("Person", Val.obj [("name", Val.str "Bob")])])]

/-- HowTo document whose section wrapper is listed before its flat step
wrapper in source order. -/
def howtoSectionFirstDoc : Val :=
  Val.obj
    [("section", Val.obj [("HowToSection", Val.obj
        [("name", Val.str "S"),
         ("step", Val.obj [("HowToStep", Val.obj [("name", Val.str "B")])])])]),
     ("step", Val.obj [("HowToStep", Val.obj [("name", Val.str "A")])])]

/- ---------- C1 ---------- -/

/-- C1, counterexample.  The claim says a Product with a present but
empty offers element emits `offers: []`.  On the source, `clean`
deletes every empty array, `offers: []` included: the emitted JSON-LD
has no `offers` key at all. -/
theorem claim_C1_counterexample :
    hasKey productNoOffers "offers" = true ∧
    productOffers productNoOffers = [] ∧
    hasKey (product productNoOffers).jsonLd "offers" = false :=
  ⟨rfl, rfl, rfl⟩

/-- C1 (amended): for a Product whose offers element yields zero Offer
entries, the emitted JSON-LD omits the `offers` key (the always-present
empty array is pruned by `clean` like any other empty array), and the
html has no "From:" line; with at least one offer the "From:" line
shows the price and priceCurrency of the first offer in source order
(not the cheapest), and `offers` is emitted as the typed non-empty
array. -/
theorem claim_C1 :
    (∀ P : Val, productOffers P = [] → hasKey (product P).jsonLd "offers" = false) ∧
    containsSub (product productNoOffers).html "From:" = false ∧
    containsSub (product productTwoOffers).html "<p><strong>From:</strong> 5 USD</p>" = true ∧
    getF (product productTwoOffers).jsonLd "offers"
      = Val.arr
        [Val.obj [("@type", Val.str "Offer"), ("price", Val.str "5"),
                  ("priceCurrency", Val.str "USD"), ("availability", Val.null)],
         Val.obj [("@type", Val.str "Offer"), ("price", Val.str "3"),
                  ("priceCurrency", Val.str "EUR"), ("availability", Val.null)]] := by
  refine ⟨?_, rfl, rfl, rfl⟩
  intro P h
  have hnd : ((productFields P).map Prod.fst).Nodup := by
    show (["@context", "@type", "name", "description", "image", "brand",
           "sku", "gtin13", "offers", "aggregateRating"] : List String).Nodup
    decide
  show (List.lookup "offers" (clean (productFields P))).isSome = false
  rw [lookup_clean_eq _ _ hnd]
  rw [show List.lookup "offers" (productFields P)
        = some (Val.arr (productOfferObjs P)) from rfl]
  rw [show productOfferObjs P = (productOffers P).map (fun o =>
    Val.obj [("@type", Val.str "Offer"),
             ("price", getF o "price"),
             ("priceCurrency", getF o "priceCurrency"),
             ("availability", getF o "availability")]) from rfl]
  rw [h]
  rfl

/-- C1, witness: the quantified part of the amended claim applied to
the concrete zero-offer Product. -/
theorem claim_C1_witness :
    productOffers productNoOffers = [] ∧
    hasKey (product productNoOffers).jsonLd "offers" = false :=
  ⟨rfl, claim_C1.1 productNoOffers rfl⟩

/- ---------- C2 ---------- -/

/-- C2, counterexample.  The claim extends the `clean` omission rule to
all six mappers and to nested objects.  On the source, `breadcrumbs`
never calls `clean` (an itemless BreadcrumbList emits
`itemListElement: []`), and nested objects are not pruned (an author
without URL keeps a nullish `url` key inside `author`). -/
theorem claim_C2_counterexample :
    hasKey (breadcrumbs (Val.obj [])).jsonLd "itemListElement" = true ∧
    getF (breadcrumbs (Val.obj [])).jsonLd "itemListElement" = Val.arr [] ∧
    hasKey (getF (article articleNoAuthorUrl).jsonLd "author") "url" = true ∧
    getF (getF (article articleNoAuthorUrl).jsonLd "author") "url" = Val.null :=
  ⟨rfl, rfl, rfl, rfl⟩

/-- C2 (amended): the omission invariant holds exactly for the
top-level keys of the five mappers that apply `clean` (Article, HowTo,
Organization, LocalBusiness, Product): no top-level key of their
emitted JSON-LD holds a nullish value or an empty array.  BreadcrumbList
does not prune, and nested objects are not pruned in any mapper. -/
theorem claim_C2 :
    (∀ (d : Val) (k : String) (v : Val),
      List.lookup k (objFields (article d).jsonLd) = some v → keepVal v = true) ∧
    (∀ (d : Val) (k : String) (v : Val),
      List.lookup k (objFields (howto d).jsonLd) = some v → keepVal v = true) ∧
    (∀ (d : Val) (k : String) (v : Val),
      List.lookup k (objFields (organization d).jsonLd) = some v → keepVal v = true) ∧
    (∀ (d : Val) (k : String) (v : Val),
      List.lookup k (objFields (localBusiness d).jsonLd) = some v → keepVal v = true) ∧
    (∀ (d : Val) (k : String) (v : Val),
      List.lookup k (objFields (product d).jsonLd) = some v → keepVal v = true) :=
  ⟨fun _ _ _ h => lookup_clean_keep h,
   fun _ _ _ h => lookup_clean_keep h,
   fun _ _ _ h => lookup_clean_keep h,
   fun _ _ _ h => lookup_clean_keep h,
   fun _ _ _ h => lookup_clean_keep h⟩

/-- C2, witness: the Article part of the amended claim applied to a
concrete document and the `@context` key it emits. -/
theorem claim_C2_witness : keepVal (Val.str "https://schema.org") = true :=
  claim_C2.1 (Val.obj []) "@context" (Val.str "https://schema.org") rfl

/- ---------- C3 ---------- -/

/-- C3, counterexample.  The claim predicts that any first remaining
key outside the supported set fails with the unsupported-root error
naming the tag.  The empty-string key is a counterexample: it survives
the processing-instruction filter and is not in the set, yet
`if (!root)` treats the falsy empty string like an absent root and the
call fails with the missing-root error instead. -/
theorem claim_C3_counterexample :
    rootKey (Val.obj [("", Val.str "x")]) = some "" ∧
    ("" ∈ supportedRoots) = False ∧
    transform (Val.obj [("", Val.str "x")]) = Except.error "No document root element found" ∧
    "No document root element found" ≠ "Unsupported root: " ++ "" :=
  ⟨rfl, by simp [supportedRoots], rfl, by decide⟩

/-- C3 (amended): the dispatcher scans the top-level keys in order,
skips processing-instruction keys, and takes the first remaining key as
the root; when no key remains — or when the first remaining key is the
empty string, which the falsy-root test conflates with absence — it
fails with the missing-root error and produces no output; any other
first remaining key outside the supported set fails with the
unsupported-root error naming the offending tag, as at the concrete
documents with only `?xml`, and with root `Recipe`. -/
theorem claim_C3 :
    (∀ doc : Val, rootKey doc = none →
      transform doc = Except.error "No document root element found") ∧
    (∀ doc : Val, rootKey doc = some "" →
      transform doc = Except.error "No document root element found") ∧
    (∀ (doc : Val) (r : String), rootKey doc = some r → r ≠ "" → r ∉ supportedRoots →
      transform doc = Except.error ("Unsupported root: " ++ r)) ∧
    transform (Val.obj [("?xml", Val.obj [("version", Val.str "1.0")])]) =
      Except.error "No document root element found" ∧
    transform (Val.obj [("Recipe", Val.obj [])]) = Except.error "Unsupported root: Recipe" := by
  refine ⟨?_, ?_, ?_, rfl, rfl⟩
  · intro doc h
    unfold transform; rw [h]
  · intro doc h
    unfold transform; rw [h]; rfl
  · intro doc r h hne hnm
    simp only [supportedRoots, List.mem_cons, List.not_mem_nil, or_false] at hnm
    push_neg at hnm
    obtain ⟨h1, h2, h3, h4, h5, h6⟩ := hnm
    unfold transform
    rw [h]
    simp [hne, h1, h2, h3, h4, h5, h6]

/-- C3, witness: the missing-root and unsupported-root parts of the
amended claim applied to concrete documents. -/
theorem claim_C3_witness :
    transform (Val.obj [("?xml", Val.obj [])]) = Except.error "No document root element found" ∧
    transform (Val.obj [("Recipe", Val.str "r")]) = Except.error "Unsupported root: Recipe" :=
  ⟨claim_C3.1 (Val.obj [("?xml", Val.obj [])]) rfl,
   claim_C3.2.2.1 (Val.obj [("Recipe", Val.str "r")]) "Recipe" rfl (by decide) (by decide)⟩


/- ---------- C4 ---------- -/

/-- C4: for every document with a supported root, the transform
succeeds and the emitted JSON-LD has `@context` fixed to
`https://schema.org` and `@type` equal to the root tag, except that the
root tag `OrgRoot` yields `@type` `Organization`. -/
theorem claim_C4 (doc : Val) (root : String) (h : rootKey doc = some root)
    (hs : root ∈ supportedRoots) :
    ∃ out, transform doc = Except.ok out ∧
      getF out.jsonLd "@context" = Val.str "https://schema.org" ∧
      getF out.jsonLd "@type" = Val.str (if root = "OrgRoot" then "Organization" else root) := by
  simp only [supportedRoots, List.mem_cons, List.not_mem_nil, or_false] at hs
  rcases hs with rfl | rfl | rfl | rfl | rfl | rfl
  · exact ⟨article (getF doc "Article"), by unfold transform; rw [h]; rfl, rfl, rfl⟩
  · exact ⟨howto (getF doc "HowTo"), by unfold transform; rw [h]; rfl, rfl, rfl⟩
  · exact ⟨breadcrumbs (getF doc "BreadcrumbList"), by unfold transform; rw [h]; rfl, rfl, rfl⟩
  · exact ⟨organization (getF doc "OrgRoot"), by unfold transform; rw [h]; rfl, rfl, rfl⟩
  · exact ⟨localBusiness (getF doc "LocalBusiness"), by unfold transform; rw [h]; rfl, rfl, rfl⟩
  · exact ⟨product (getF doc "Product"), by unfold transform; rw [h]; rfl, rfl, rfl⟩

/-- C4, witness: the claim applied to a concrete OrgRoot document
(the one root-tag/type divergence). -/
theorem claim_C4_witness :
    rootKey (Val.obj [("?xml", Val.obj []), ("OrgRoot", Val.obj [("name", Val.str "Acme")])])
      = some "OrgRoot" ∧
    "OrgRoot" ∈ supportedRoots ∧
    (∃ out,
      transform (Val.obj [("?xml", Val.obj []), ("OrgRoot", Val.obj [("name", Val.str "Acme")])])
        = Except.ok out ∧
      getF out.jsonLd "@context" = Val.str "https://schema.org" ∧
      getF out.jsonLd "@type"
        = Val.str (if "OrgRoot" = "OrgRoot" then "Organization" else "OrgRoot")) :=
  ⟨rfl, by simp [supportedRoots],
   claim_C4 (Val.obj [("?xml", Val.obj []), ("OrgRoot", Val.obj [("name", Val.str "Acme")])])
     "OrgRoot" rfl (by simp [supportedRoots])⟩

/- ---------- C5 ---------- -/

/-- C5: the HowTo `step` array lists every flat `HowToStep` first and
every `HowToSection` after them, each group in source order, regardless
of the order the two shapes appear in the document; at the concrete
document whose section wrapper is listed before its flat step wrapper,
one flat step A and one section holding step B still emit
`[A, Section(B)]`. -/
theorem claim_C5 :
    (∀ H : Val, (howtoFlatSteps H).isEmpty = false →
      getF (howto H).jsonLd "step" = Val.arr (howtoFlatSteps H ++ howtoSectionSteps H)) ∧
    getF (howto howtoSectionFirstDoc).jsonLd "step"
      = Val.arr
        [Val.obj [("@type", Val.str "HowToStep"), ("name", Val.str "A"),
                  ("text", Val.null), ("image", Val.null)],
         Val.obj [("@type", Val.str "HowToSection"), ("name", Val.str "S"),
                  ("itemListElement", Val.arr
                    [Val.obj [("@type", Val.str "HowToStep"), ("name", Val.str "B"),
                              ("text", Val.null), ("image", Val.null)]])]] := by
  refine ⟨?_, rfl⟩
  intro H h
  have hnd : ((howtoFields H).map Prod.fst).Nodup := by
    show (["@context", "@type", "name", "description", "totalTime",
           "supply", "tool", "step"] : List String).Nodup
    decide
  have hk : keepVal (Val.arr (howtoFlatSteps H ++ howtoSectionSteps H)) = true := by
    cases hf : howtoFlatSteps H with
    | nil => rw [hf] at h; simp [List.isEmpty] at h
    | cons a t => rfl
  show (List.lookup "step" (clean (howtoFields H))).getD Val.null = _
  rw [lookup_clean_eq _ _ hnd]
  rw [show List.lookup "step" (howtoFields H)
        = some (Val.arr (howtoFlatSteps H ++ howtoSectionSteps H)) from rfl]
  simp [hk]

/-- C5, witness: the quantified part applied to the concrete
section-first HowTo document. -/
theorem claim_C5_witness :
    (howtoFlatSteps howtoSectionFirstDoc).isEmpty = false ∧
    getF (howto howtoSectionFirstDoc).jsonLd "step"
      = Val.arr (howtoFlatSteps howtoSectionFirstDoc ++ howtoSectionSteps howtoSectionFirstDoc) :=
  ⟨rfl, claim_C5.1 howtoSectionFirstDoc rfl⟩

/- ---------- C6 ---------- -/

/-- C6: HTML-bound text is escaped exactly once while the JSON-LD copy
of the same text is not escaped: an Article with headline `s` renders
`<h1>` around one application of the escape to `s`, while
`jsonLd.headline` holds `s` verbatim; concretely, headline `a<b`
renders `a&lt;b` in html and stays `a<b` in the JSON-LD. -/
theorem claim_C6 :
    (∀ s : String, s ≠ "" →
      (article (Val.obj [("headline", Val.str s)])).html = "<h1>" ++ escStr s ++ "</h1>" ∧
      getF (article (Val.obj [("headline", Val.str s)])).jsonLd "headline" = Val.str s) ∧
    (article (Val.obj [("headline", Val.str "a<b")])).html = "<h1>a&lt;b</h1>" ∧
    getF (article (Val.obj [("headline", Val.str "a<b")])).jsonLd "headline" = Val.str "a<b" := by
  refine ⟨?_, rfl, rfl⟩
  intro s hs
  refine ⟨?_, rfl⟩
  have hb : (s == "") = false := str_beq_false hs
  have hj : jsOr (Val.str s) (Val.str "Article") = Val.str s := by
    simp [jsOr, truthy, hb]
  show "<h1>" ++ esc (jsOr (Val.str s) (Val.str "Article")) ++ "</h1>" ++ "" ++ "" = _
  rw [hj]
  show "<h1>" ++ escStr s ++ "</h1>" ++ "" ++ "" = _
  rw [String.append_empty, String.append_empty]

/-- C6, witness: the quantified part applied at the headline `x`. -/
theorem claim_C6_witness :
    ("x" : String) ≠ "" ∧
    ((article (Val.obj [("headline", Val.str "x")])).html = "<h1>" ++ escStr "x" ++ "</h1>" ∧
      getF (article (Val.obj [("headline", Val.str "x")])).jsonLd "headline" = Val.str "x") :=
  ⟨by decide, claim_C6.1 "x" (by decide)⟩

/- ---------- C7 ---------- -/

/-- BreadcrumbList document with the two-item Home/Docs trail of the
claim. -/
def breadcrumbDemoDoc : Val :=
  Val.obj [("itemListElement", Val.obj [("ListItem", Val.arr
    [Val.obj [("position", Val.str "1"), ("name", Val.str "Home"), ("item", Val.str "/")],
     Val.obj [("position", Val.str "2"), ("name", Val.str "Docs"), ("item", Val.str "/docs")]])])]

/-- BreadcrumbList document whose single item has no URL. -/
def breadcrumbNoUrlDoc : Val :=
  Val.obj [("itemListElement", Val.obj [("ListItem",
    Val.obj [("position", Val.str "1"), ("name", Val.str "X")])])]

/-- BreadcrumbList document with non-contiguous, unordered positions:
the last item in source order carries the lower position. -/
def breadcrumbUnorderedDoc : Val :=
  Val.obj [("itemListElement", Val.obj [("ListItem", Val.arr
    [Val.obj [("position", Val.str "5"), ("name", Val.str "A"), ("item", Val.str "/a")],
     Val.obj [("position", Val.str "2"), ("name", Val.str "B"), ("item", Val.str "/b")]])])]

/-- C7: `itemListElement` maps the items in source order with no
renumbering, each `position` being the numeric coercion of the input
position; on the Home/Docs trail the second entry has numeric position
2 and `meta.title` is `Docs`; an item with no URL links to `#`; with
unordered positions 5, 2 the positions are kept verbatim and
`meta.title` is the name of the last item in source order, not of the
highest position. -/
theorem claim_C7 :
    (∀ its : List Val,
      getF (breadcrumbs (Val.obj [("itemListElement", Val.obj [("ListItem", Val.arr its)])])).jsonLd
          "itemListElement"
        = Val.arr (its.map (fun it =>
            Val.obj [("@type", Val.str "ListItem"),
                     ("position", Val.num (jsNumber (getF it "position"))),
                     ("name", getF it "name"),
                     ("item", getF it "item")]))) ∧
    getF (breadcrumbs breadcrumbDemoDoc).jsonLd "itemListElement"
      = Val.arr
        [Val.obj [("@type", Val.str "ListItem"), ("position", Val.num (JNum.int 1)),
                  ("name", Val.str "Home"), ("item", Val.str "/")],
         Val.obj [("@type", Val.str "ListItem"), ("position", Val.num (JNum.int 2)),
                  ("name", Val.str "Docs"), ("item", Val.str "/docs")]] ∧
    (breadcrumbs breadcrumbDemoDoc).meta.title = Val.str "Docs" ∧
    (breadcrumbs breadcrumbNoUrlDoc).html
      = "<nav aria-label=\"Breadcrumb\"><ol><li><a href=\"#\">X</a></li></ol></nav>" ∧
    getF (breadcrumbs breadcrumbUnorderedDoc).jsonLd "itemListElement"
      = Val.arr
        [Val.obj [("@type", Val.str "ListItem"), ("position", Val.num (JNum.int 5)),
                  ("name", Val.str "A"), ("item", Val.str "/a")],
         Val.obj [("@type", Val.str "ListItem"), ("position", Val.num (JNum.int 2)),
                  ("name", Val.str "B"), ("item", Val.str "/b")]] ∧
    (breadcrumbs breadcrumbUnorderedDoc).meta.title = Val.str "B" :=
  ⟨fun _ => rfl, rfl, rfl, rfl, rfl, rfl⟩

/- ---------- C8 ---------- -/

/-- BreadcrumbList document whose item has the non-numeric position
`abc`. -/
def breadcrumbBadPosDoc : Val :=
  Val.obj [("BreadcrumbList", Val.obj [("itemListElement", Val.obj [("ListItem",
    Val.obj [("position", Val.str "abc"), ("name", Val.str "X"), ("item", Val.str "/x")])])])]

/-- C8, counterexample.  The claim says a position that does not coerce
to a number makes the call fail.  On the source, `Number("abc")` is
`NaN` and never throws: the transform succeeds and silently passes the
NaN position into the output. -/
theorem claim_C8_counterexample :
    transform breadcrumbBadPosDoc =
      Except.ok
        { html := "<nav aria-label=\"Breadcrumb\"><ol><li><a href=\"/x\">X</a></li></ol></nav>",
          jsonLd := Val.obj
            [("@context", Val.str "https://schema.org"),
             ("@type", Val.str "BreadcrumbList"),
             ("itemListElement", Val.arr
               [Val.obj [("@type", Val.str "ListItem"), ("position", Val.num JNum.nan),
                         ("name", Val.str "X"), ("item", Val.str "/x")]])],
          meta := { title := Val.str "X", description := Val.null } } :=
  rfl

/-- C8 (amended): a BreadcrumbList transform never fails; a position
that does not coerce to a number is not fatal — the coercion yields NaN
and the entry is emitted with `position` NaN, silently passed through
rather than recovered or rejected. -/
theorem claim_C8 :
    (∀ B : Val, transform (Val.obj [("BreadcrumbList", B)]) = Except.ok (breadcrumbs B)) ∧
    (∀ s nm url : String, jsStrToNum s = JNum.nan →
      getF (breadcrumbs (Val.obj [("itemListElement", Val.obj [("ListItem",
          Val.obj [("position", Val.str s), ("name", Val.str nm), ("item", Val.str url)])])])).jsonLd
        "itemListElement"
      = Val.arr [Val.obj [("@type", Val.str "ListItem"), ("position", Val.num JNum.nan),
                          ("name", Val.str nm), ("item", Val.str url)]]) := by
  refine ⟨fun _ => rfl, ?_⟩
  intro s nm url h
  show Val.arr [Val.obj [("@type", Val.str "ListItem"), ("position", Val.num (jsStrToNum s)),
                         ("name", Val.str nm), ("item", Val.str url)]] = _
  rw [h]

/-- C8, witness: the NaN-passthrough part applied at the non-numeric
position `abc`. -/
theorem claim_C8_witness :
    jsStrToNum "abc" = JNum.nan ∧
    getF (breadcrumbs (Val.obj [("itemListElement", Val.obj [("ListItem",
        Val.obj [("position", Val.str "abc"), ("name", Val.str "X"), ("item", Val.str "/x")])])])).jsonLd
      "itemListElement"
    = Val.arr [Val.obj [("@type", Val.str "ListItem"), ("position", Val.num JNum.nan),
                        ("name", Val.str "X"), ("item", Val.str "/x")]] :=
  ⟨rfl, claim_C8.2 "abc" "X" "/x" rfl⟩

/- ---------- C9 ---------- -/

/-- C9: the prune step `clean` is idempotent — cleaning an already
cleaned field list changes nothing. -/
theorem claim_C9 : ∀ l : List (String × Val), clean (clean l) = clean l := by
  intro l
  induction l with
  | nil => rfl
  | cons hd t ih =>
    cases hkeep : keepVal hd.2 with
    | true => simp [clean, List.filter_cons, hkeep] at ih ⊢
    | false => simp [clean, List.filter_cons, hkeep] at ih ⊢

/- ---------- C10 ---------- -/

/-- C10: escaped output is escape-wellformed — it contains no raw `<`,
`>` or `"`, and every `&` in it opens one of the entities `amp;`,
`lt;`, `gt;`, `quot;` (the ampersand pass runs first, so one
application never corrupts its own output); escaping already-escaped
text double-escapes it, as `&lt;` becoming `&amp;lt;` shows. -/
theorem claim_C10 :
    (∀ s : String, escOk (escStr s).data = true) ∧
    escStr "&lt;" = "&amp;lt;" :=
  ⟨fun s => escOk_escL s.data, by decide⟩

end AEO
